import Mathlib

/-!
Verification development for the `SafetyBarrier` module
(`navsim/agents/goalflow/safety_barrier.py`).

The module converts a batched BEV semantic-occupancy prediction into a signed
distance field (SDF) and samples the field's value and gradient at metric
trajectory points.  Tensors `[B, C, H, W]` are embedded as curried functions
`Fin B → Fin C → Fin H → Fin W → α`; a `[B, 1, H, W]` tensor is embedded with
its singleton channel dimension squeezed away.  Logits and the probability
threshold are real numbers (`torch.sigmoid` is transcendental); everything
downstream of the binary mask is exact rational arithmetic.
-/

/-- Configuration stored by `SafetyBarrier.__init__` (lines 7-17 of the
source): `pixel_size` (meters per pixel), `ego_radius` (meters) and
`bev_range` (meters).  The constructor performs no validation: it only
stores the three values. -/
structure Config where
  pixel_size : ℚ
  ego_radius : ℚ
  bev_range : ℚ
deriving DecidableEq

/-- `torch.sigmoid`: the logistic function `1 / (1 + exp (-x))`. -/
noncomputable def sigmoid (x : ℝ) : ℝ := 1 / (1 + Real.exp (-x))

/-- Lines 31-34 of the source: `road_prob = torch.sigmoid(semantics[:, 1:2])`
followed by `drivable_mask = (road_prob > threshold).float()`.  Channel index
1 is the drivable-area class, so the channel dimension must satisfy `1 < C`.
The result is the float-valued binary mask (cells are `1` or `0`). -/
noncomputable def drivable_mask {B C H W : ℕ}
    (semantics : Fin B → Fin C → Fin H → Fin W → ℝ) (hC : 1 < C) (threshold : ℝ) :
    Fin B → Fin H → Fin W → ℚ :=
  fun b i j => if sigmoid (semantics b ⟨1, hC⟩ i j) > threshold then 1 else 0

/-- Manhattan distance between two grid cells, in grid-cell units. -/
def cellDist {H W : ℕ} (i : Fin H) (j : Fin W) (p : Fin H × Fin W) : ℕ :=
  Nat.dist i.val p.1.val + Nat.dist j.val p.2.val

/-- Modelled from the spec: `kornia.contrib.distance_transform`, imported on
line 27 of the source, is external to this repository.  The spec describes it
as a discrete distance transform that "returns, at every cell, the ...
distance in grid-cell units to the nearest cell of opposite value (treating
mask-interior cells specially: distance is to the nearest zero-valued cell)",
i.e. the distance to the nearest zero-valued cell of the input grid, and for
"a mask of all-zero or all-one cells" it returns "the transform's defined
degenerate value (e.g., a large sentinel distance)".  We use the (Manhattan)
distance to the nearest zero cell and the saturating sentinel `H + W`, which
exceeds every realisable in-grid distance. -/
def distance_transform {H W : ℕ} (g : Fin H → Fin W → ℚ) :
    Fin H → Fin W → ℚ := fun i j =>
  let zs := Finset.univ.filter fun p : Fin H × Fin W => g p.1 p.2 = 0
  if h : zs.Nonempty then ((zs.inf' h (cellDist i j) : ℕ) : ℚ)
  else ((H + W : ℕ) : ℚ)

/-- `SafetyBarrier.compute_sdf` (lines 19-54 of the source), with the
singleton channel dimension of the `[B, 1, H, W]` output squeezed away:
build the drivable mask and its float complement, take the two distance
transforms, fuse them, scale to meters and subtract the ego radius. -/
noncomputable def compute_sdf {B C H W : ℕ} (cfg : Config)
    (semantics : Fin B → Fin C → Fin H → Fin W → ℝ) (hC : 1 < C) (threshold : ℝ) :
    Fin B → Fin H → Fin W → ℚ :=
  let dm := drivable_mask semantics hC threshold
  let ndm := fun b i j => 1 - dm b i j
  let dist_to_boundary := fun b => distance_transform (dm b)
  let dist_to_drivable := fun b => distance_transform (ndm b)
  fun b i j =>
    (dist_to_boundary b i j - dist_to_drivable b i j) * cfg.pixel_size
      - cfg.ego_radius

/-- Clamp an integer index into `{0, ..., n-1}`; this is the index clipping
performed by border padding / replicate padding. -/
def clampIdx (n : ℕ) (hn : 0 < n) (i : ℤ) : Fin n :=
  ⟨(min (max i 0) ((n : ℤ) - 1)).toNat, by omega⟩

/-- `torch.clamp(x, -1, 1)` (lines 144-145 of the source). -/
def clamp11 (q : ℚ) : ℚ := min (max q (-1)) 1

/-- `SafetyBarrier.metric_to_grid` (lines 109-150 of the source), per point:
forward goes to the row (vertical) pixel coordinate, lateral goes to the
column (horizontal) pixel coordinate offset by `W/2`; each pixel coordinate
is normalised by its axis extent and clamped to `[-1, 1]`.  The result is an
`(x, y)` pair in `grid_sample`'s convention: first component horizontal,
second component vertical. -/
def metric_to_grid (pixel_size : ℚ) (p : ℚ × ℚ) (H W : ℕ) : ℚ × ℚ :=
  let pixel_y := p.1 / pixel_size
  let pixel_x := p.2 / pixel_size + (W : ℚ) / 2
  let norm_x := (pixel_x / ((W : ℚ) - 1)) * 2 - 1
  let norm_y := (pixel_y / ((H : ℚ) - 1)) * 2 - 1
  (clamp11 norm_x, clamp11 norm_y)

/-- `F.grid_sample(..., align_corners=True, mode='bilinear',
padding_mode='border')` at a single normalised coordinate `(x, y)`:
unnormalise each axis by `(v + 1) / 2 * (dim - 1)`, then bilinearly
interpolate the four surrounding cells, clipping out-of-range indices to the
border.  Degenerate zero-sized grids hold no data and sample to `0`. -/
def gridSample {H W : ℕ} (g : Fin H → Fin W → ℚ) (x y : ℚ) : ℚ :=
  if hH : 0 < H then
    if hW : 0 < W then
      let ix := (x + 1) / 2 * ((W : ℚ) - 1)
      let iy := (y + 1) / 2 * ((H : ℚ) - 1)
      let x0 : ℤ := ⌊ix⌋
      let y0 : ℤ := ⌊iy⌋
      let wx := ix - (x0 : ℚ)
      let wy := iy - (y0 : ℚ)
      let v : ℤ → ℤ → ℚ := fun r c => g (clampIdx H hH r) (clampIdx W hW c)
      (1 - wy) * ((1 - wx) * v y0 x0 + wx * v y0 (x0 + 1)) +
        wy * ((1 - wx) * v (y0 + 1) x0 + wx * v (y0 + 1) (x0 + 1))
    else 0
  else 0

/-- The first Sobel kernel of `get_gradients` (lines 72-73 of the source):
`[[-1, 0, 1], [-2, 0, 2], [-1, 0, 1]] / 8`, a horizontal (column-axis)
derivative kernel. -/
def sobel_x (a b : Fin 3) : ℚ :=
  ((([[-1, 0, 1], [-2, 0, 2], [-1, 0, 1]] : List (List ℚ)).getD a []).getD b 0) / 8

/-- The second Sobel kernel of `get_gradients` (lines 74-75 of the source):
`[[-1, -2, -1], [0, 0, 0], [1, 2, 1]] / 8`, a vertical (row-axis) derivative
kernel. -/
def sobel_y (a b : Fin 3) : ℚ :=
  ((([[-1, -2, -1], [0, 0, 0], [1, 2, 1]] : List (List ℚ)).getD a []).getD b 0) / 8

/-- `F.pad(sdf, (1, 1, 1, 1), mode='replicate')` followed by the valid
`F.conv2d` with a `3 × 3` kernel (lines 78-82 of the source): the padded grid
reads the nearest in-range cell, and `F.conv2d` is a cross-correlation, so
the output cell `(i, j)` sums `k a b * g (i + a - 1) (j + b - 1)` with
clipped indices. -/
def convClamp {H W : ℕ} (g : Fin H → Fin W → ℚ) (k : Fin 3 → Fin 3 → ℚ) :
    Fin H → Fin W → ℚ := fun i j =>
  ∑ a : Fin 3, ∑ b : Fin 3,
    k a b * g (clampIdx H i.pos ((i : ℤ) + (a : ℤ) - 1))
              (clampIdx W j.pos ((j : ℤ) + (b : ℤ) - 1))

/-- `SafetyBarrier.get_gradients` (lines 56-107 of the source): build the two
Sobel gradient maps of the SDF, convert the metric trajectory points to
normalised grid coordinates, bilinearly sample the SDF and both gradient
maps at those coordinates, and return the sampled values together with the
gradients remapped to metric `(forward, lateral)` order, each divided by
`pixel_size`.  The `[B, N, 1]` value tensor is embedded with its singleton
dimension squeezed away. -/
def get_gradients {B H W N : ℕ} (cfg : Config)
    (sdf : Fin B → Fin H → Fin W → ℚ) (trajs : Fin B → Fin N → ℚ × ℚ) :
    (Fin B → Fin N → ℚ) × (Fin B → Fin N → ℚ × ℚ) :=
  let grad_x_map := fun b => convClamp (sdf b) sobel_x
  let grad_y_map := fun b => convClamp (sdf b) sobel_y
  let grid_coords := fun b n => metric_to_grid cfg.pixel_size (trajs b n) H W
  let h_val := fun b n =>
    gridSample (sdf b) (grid_coords b n).1 (grid_coords b n).2
  let grad_x_sampled := fun b n =>
    gridSample (grad_x_map b) (grid_coords b n).1 (grid_coords b n).2
  let grad_y_sampled := fun b n =>
    gridSample (grad_y_map b) (grid_coords b n).1 (grid_coords b n).2
  (h_val, fun b n =>
    (grad_y_sampled b n / cfg.pixel_size, grad_x_sampled b n / cfg.pixel_size))

/-!
Dynamically-shaped model, used to settle the error-handling claims.  The
batch dimension is a `List`, so batch sizes of different inputs can disagree,
and each call returns `Except PyError`, so "the call raises" and "the call
returns a value" are distinguishable.  `PyError` separates the error kinds
the spec names (`ShapeMismatch`, `InvalidConfiguration`) from the generic
runtime error a tensor library primitive raises on malformed arguments.
-/

/-- The possible failure kinds of a call: the spec's `ShapeMismatch` and
`InvalidConfiguration` error classes, and `torchRuntime` for the generic
runtime error raised from inside a tensor-library primitive such as
`F.grid_sample`. -/
inductive PyError where
  | shapeMismatch : PyError
  | invalidConfiguration : PyError
  | torchRuntime : PyError
deriving DecidableEq

/-- `SafetyBarrier.__init__` (lines 7-17 of the source): the constructor
stores `pixel_size`, `ego_radius` and `bev_range` without any validation, so
it succeeds on every input. -/
def SafetyBarrier_init (pixel_size ego_radius bev_range : ℚ) :
    Except PyError Config :=
  .ok ⟨pixel_size, ego_radius, bev_range⟩

/-- `compute_sdf` in the dynamic model: the source performs no configuration
or threshold validation anywhere (lines 19-54), so on a well-formed
`[B, C, H, W]` input the call always returns the computed field. -/
noncomputable def compute_sdf_dyn {B C H W : ℕ} (cfg : Config)
    (semantics : Fin B → Fin C → Fin H → Fin W → ℝ) (hC : 1 < C) (threshold : ℝ) :
    Except PyError (Fin B → Fin H → Fin W → ℚ) :=
  .ok (compute_sdf cfg semantics hC threshold)

/-- Batched `F.grid_sample`: the primitive itself requires the batch sizes of
the input maps and of the sampling grid to agree and raises a runtime error
when they do not; there is no up-front check in the caller. -/
def grid_sample_batch {H W : ℕ} (inputs : List (Fin H → Fin W → ℚ))
    (grids : List (List (ℚ × ℚ))) : Except PyError (List (List ℚ)) :=
  if inputs.length = grids.length then
    .ok (List.zipWith (fun g pts => pts.map fun c => gridSample g c.1 c.2)
      inputs grids)
  else .error .torchRuntime

/-- `SafetyBarrier.get_gradients` in the dynamic model, mirroring the order
of operations of lines 68-107 of the source: the Sobel maps and the grid
coordinates are built first, without any shape check at entry; a batch-size
mismatch between `sdf` and `trajs` only surfaces when `F.grid_sample` is
reached. -/
def get_gradients_dyn {H W : ℕ} (cfg : Config)
    (sdf : List (Fin H → Fin W → ℚ)) (trajs : List (List (ℚ × ℚ))) :
    Except PyError (List (List ℚ) × List (List (ℚ × ℚ))) :=
  let grad_x_map := sdf.map fun g => convClamp g sobel_x
  let grad_y_map := sdf.map fun g => convClamp g sobel_y
  let grid_coords := trajs.map fun pts =>
    pts.map fun p => metric_to_grid cfg.pixel_size p H W
  do
    let h_val ← grid_sample_batch sdf grid_coords
    let gxs ← grid_sample_batch grad_x_map grid_coords
    let gys ← grid_sample_batch grad_y_map grid_coords
    .ok (h_val,
      List.zipWith
        (List.zipWith fun gy gx => (gy / cfg.pixel_size, gx / cfg.pixel_size))
        gys gxs)

/-! Helper lemmas. -/

lemma sigmoid_denom_pos (x : ℝ) : 0 < 1 + Real.exp (-x) := by positivity

/-- The logistic function exceeds `1/2` exactly on the positive reals. -/
lemma half_lt_sigmoid_iff (x : ℝ) : (1 / 2 : ℝ) < sigmoid x ↔ 0 < x := by
  unfold sigmoid
  rw [lt_div_iff₀ (sigmoid_denom_pos x)]
  constructor
  · intro h
    have hexp : Real.exp (-x) < 1 := by linarith
    have := Real.exp_lt_exp.mp (by simpa [Real.exp_zero] using hexp)
    linarith
  · intro h
    have hexp : Real.exp (-x) < Real.exp 0 := Real.exp_lt_exp.mpr (by linarith)
    rw [Real.exp_zero] at hexp
    linarith

lemma sigmoid_zero : sigmoid 0 = 1 / 2 := by
  unfold sigmoid
  norm_num [Real.exp_zero]

/-- The float complement `1 - (if P then 1 else 0)` used on line 35 of the
source is the indicator of the logical complement. -/
lemma one_sub_indicator (P : Prop) [Decidable P] :
    (1 : ℚ) - (if P then 1 else 0) = if ¬P then 1 else 0 := by
  by_cases h : P <;> simp [h]

/-- On a grid with no zero-valued cell the distance transform saturates to
the sentinel `H + W`. -/
lemma distance_transform_of_no_zero {H W : ℕ} (g : Fin H → Fin W → ℚ)
    (h : ∀ p : Fin H × Fin W, g p.1 p.2 ≠ 0) (i : Fin H) (j : Fin W) :
    distance_transform g i j = ((H + W : ℕ) : ℚ) := by
  unfold distance_transform
  rw [dif_neg]
  intro ⟨p, hp⟩
  exact h p (by simpa using hp)

/-- A cell that is itself zero-valued has distance-transform value `0`. -/
lemma distance_transform_of_zero_at {H W : ℕ} (g : Fin H → Fin W → ℚ)
    (i : Fin H) (j : Fin W) (h : g i j = 0) :
    distance_transform g i j = 0 := by
  unfold distance_transform
  have hmem : (i, j) ∈ Finset.univ.filter
      fun p : Fin H × Fin W => g p.1 p.2 = 0 := by simp [h]
  rw [dif_pos ⟨(i, j), hmem⟩]
  have hle := Finset.inf'_le (cellDist i j) hmem
  have : cellDist i j (i, j) = 0 := by simp [cellDist, Nat.dist_self]
  rw [this] at hle
  simp [Nat.le_zero.mp hle]

/-- Bilinear sampling of a constant grid returns the constant, for any
normalised coordinate. -/
lemma gridSample_const {H W : ℕ} (hH : 0 < H) (hW : 0 < W) (c x y : ℚ) :
    gridSample (fun (_ : Fin H) (_ : Fin W) => c) x y = c := by
  unfold gridSample
  rw [dif_pos hH, dif_pos hW]
  ring

/-- A convex combination with weight in `[0, 1]` stays inside any interval
containing both endpoints. -/
lemma convex_bound (w a b lo hi : ℚ) (h0 : 0 ≤ w) (h1 : w ≤ 1)
    (ha : lo ≤ a ∧ a ≤ hi) (hb : lo ≤ b ∧ b ≤ hi) :
    lo ≤ (1 - w) * a + w * b ∧ (1 - w) * a + w * b ≤ hi := by
  obtain ⟨ha1, ha2⟩ := ha
  obtain ⟨hb1, hb2⟩ := hb
  constructor <;> nlinarith

/-- Bilinear sampling never leaves the range spanned by the grid's cell
values: the interpolation weights are fractional parts in `[0, 1)` and all
reads are clipped into the grid. -/
lemma gridSample_bounds {H W : ℕ} (hH : 0 < H) (hW : 0 < W)
    (g : Fin H → Fin W → ℚ) (x y lo hi : ℚ)
    (hlo : ∀ i j, lo ≤ g i j) (hhi : ∀ i j, g i j ≤ hi) :
    lo ≤ gridSample g x y ∧ gridSample g x y ≤ hi := by
  unfold gridSample
  rw [dif_pos hH, dif_pos hW]
  set ix := (x + 1) / 2 * ((W : ℚ) - 1) with hix
  set iy := (y + 1) / 2 * ((H : ℚ) - 1) with hiy
  have hwx0 : (0 : ℚ) ≤ ix - (⌊ix⌋ : ℚ) := by
    have := Int.floor_le ix
    linarith
  have hwx1 : ix - (⌊ix⌋ : ℚ) ≤ 1 := by
    have := Int.lt_floor_add_one ix
    linarith
  have hwy0 : (0 : ℚ) ≤ iy - (⌊iy⌋ : ℚ) := by
    have := Int.floor_le iy
    linarith
  have hwy1 : iy - (⌊iy⌋ : ℚ) ≤ 1 := by
    have := Int.lt_floor_add_one iy
    linarith
  have hv : ∀ r c : ℤ, lo ≤ g (clampIdx H hH r) (clampIdx W hW c) ∧
      g (clampIdx H hH r) (clampIdx W hW c) ≤ hi := fun r c =>
    ⟨hlo _ _, hhi _ _⟩
  exact convex_bound _ _ _ _ _ hwy0 hwy1
    (convex_bound _ _ _ _ _ hwx0 hwx1 (hv _ _) (hv _ _))
    (convex_bound _ _ _ _ _ hwx0 hwx1 (hv _ _) (hv _ _))

/-- `clamp11` always lands in `[-1, 1]`. -/
lemma clamp11_mem (q : ℚ) : -1 ≤ clamp11 q ∧ clamp11 q ≤ 1 := by
  unfold clamp11
  exact ⟨le_min (le_max_right _ _) (by norm_num), min_le_right _ _⟩

/-- Unfolding equation for `compute_sdf` at a cell. -/
lemma compute_sdf_eq {B C H W : ℕ} (cfg : Config)
    (semantics : Fin B → Fin C → Fin H → Fin W → ℝ) (hC : 1 < C)
    (threshold : ℝ) (b : Fin B) (i : Fin H) (j : Fin W) :
    compute_sdf cfg semantics hC threshold b i j =
      (distance_transform (drivable_mask semantics hC threshold b) i j
        - distance_transform
            (fun i' j' => 1 - drivable_mask semantics hC threshold b i' j') i j)
        * cfg.pixel_size - cfg.ego_radius := rfl

/-- Unfolding equation for the sampled-value component of `get_gradients`. -/
lemma get_gradients_fst {B H W N : ℕ} (cfg : Config)
    (sdf : Fin B → Fin H → Fin W → ℚ) (trajs : Fin B → Fin N → ℚ × ℚ)
    (b : Fin B) (n : Fin N) :
    (get_gradients cfg sdf trajs).1 b n =
      gridSample (sdf b) (metric_to_grid cfg.pixel_size (trajs b n) H W).1
        (metric_to_grid cfg.pixel_size (trajs b n) H W).2 := rfl

/-! Concrete inputs used by witnesses and counterexamples. -/

/-- The source's default configuration: `pixel_size = 0.25`,
`ego_radius = 2.5`, `bev_range = 32`. -/
def cfg0 : Config := ⟨1 / 4, 5 / 2, 32⟩

/-- A `[1, 2, 1, 1]` occupancy input whose single drivable-channel logit is
`0`, so `sigmoid = 1/2` and the strict threshold `1/2` classifies the cell
as non-drivable. -/
def semZero : Fin 1 → Fin 2 → Fin 1 → Fin 1 → ℝ := fun _ _ _ _ => 0

/-- A `[1, 2, 64, 64]` occupancy input with every logit equal to `1`, so the
thresholded drivable mask at threshold `1/2` is all-ones. -/
def semOnes : Fin 1 → Fin 2 → Fin 64 → Fin 64 → ℝ := fun _ _ _ _ => 1

/-- A single trajectory point at the ego origin `(forward, lateral) = (0, 0)`. -/
def trajOrigin : Fin 1 → Fin 1 → ℚ × ℚ := fun _ _ => (0, 0)

/-- The all-ones logits of `semOnes` give the all-ones drivable mask at
threshold `1/2`. -/
lemma drivable_mask_semOnes (b : Fin 1) (i j : Fin 64) :
    drivable_mask semOnes one_lt_two (1 / 2) b i j = 1 := by
  unfold drivable_mask semOnes
  rw [if_pos]
  exact (half_lt_sigmoid_iff 1).mpr one_pos

/-- The all-zero logits of `semZero` give the all-zero drivable mask at the
strict threshold `1/2`. -/
lemma drivable_mask_semZero (b i j : Fin 1) :
    drivable_mask semZero one_lt_two (1 / 2) b i j = 0 := by
  unfold drivable_mask semZero
  rw [if_neg]
  rw [sigmoid_zero]
  exact lt_irrefl _

/-! Claim theorems. -/

/-- C1: for every occupancy input with `C ≥ 2` and every threshold in
`(0, 1)`, `compute_sdf` returns, at every cell, the value
`(distance_transform drivable - distance_transform non_drivable) *
pixel_size - ego_radius`, where the drivable mask thresholds the sigmoid of
the channel-1 logit strictly and the non-drivable mask is its logical
complement. -/
theorem c1_compute_sdf_fused_formula {B C H W : ℕ} (cfg : Config)
    (semantics : Fin B → Fin C → Fin H → Fin W → ℝ) (hC : 1 < C)
    (threshold : ℝ) (ht : 0 < threshold ∧ threshold < 1)
    (b : Fin B) (i : Fin H) (j : Fin W) :
    compute_sdf cfg semantics hC threshold b i j =
      (distance_transform (fun i j =>
          if sigmoid (semantics b ⟨1, hC⟩ i j) > threshold then (1 : ℚ) else 0) i j
        - distance_transform (fun i j =>
          if ¬ sigmoid (semantics b ⟨1, hC⟩ i j) > threshold then (1 : ℚ) else 0) i j)
        * cfg.pixel_size - cfg.ego_radius := by
  simp only [compute_sdf, drivable_mask, one_sub_indicator]
  rfl

theorem c1_witness :
    ((0 : ℝ) < 1 / 2 ∧ (1 / 2 : ℝ) < 1) ∧
    compute_sdf cfg0 semZero one_lt_two (1 / 2) 0 0 0 =
      (distance_transform (fun i j =>
          if sigmoid (semZero 0 ⟨1, one_lt_two⟩ i j) > (1 / 2 : ℝ) then (1 : ℚ) else 0) 0 0
        - distance_transform (fun i j =>
          if ¬ sigmoid (semZero 0 ⟨1, one_lt_two⟩ i j) > (1 / 2 : ℝ) then (1 : ℚ) else 0) 0 0)
        * cfg0.pixel_size - cfg0.ego_radius :=
  ⟨by norm_num,
    c1_compute_sdf_fused_formula cfg0 semZero one_lt_two (1 / 2)
      (by norm_num) 0 0 0⟩

/-- Declared from the words of claim C2 (the spec's coordinate-conversion
recipe): `row = forward / pixel_size`, `col = lateral / pixel_size + W/2`,
each index normalised by `(index / (dim - 1)) * 2 - 1` (row to the vertical
axis, col to the horizontal axis), both clamped to `[-1, 1]`; the pair is
`(horizontal, vertical)` in the sampler's convention. -/
def metric_to_grid_spec (pixel_size : ℚ) (p : ℚ × ℚ) (H W : ℕ) : ℚ × ℚ :=
  let row := p.1 / pixel_size
  let col := p.2 / pixel_size + (W : ℚ) / 2
  let norm_row := (row / ((H : ℚ) - 1)) * 2 - 1
  let norm_col := (col / ((W : ℚ) - 1)) * 2 - 1
  (clamp11 norm_col, clamp11 norm_row)

/-- C2: the metric-to-grid conversion computes `row = forward / pixel_size`
and `col = lateral / pixel_size + W/2`, normalises each index by
`(index / (dim - 1)) * 2 - 1` on its own axis, and clamps both normalised
coordinates to `[-1, 1]`, so out-of-bounds points are pinned to the nearest
edge rather than rejected. -/
theorem c2_metric_to_grid_conversion (pixel_size : ℚ) (p : ℚ × ℚ) (H W : ℕ) :
    metric_to_grid pixel_size p H W = metric_to_grid_spec pixel_size p H W ∧
    -1 ≤ (metric_to_grid pixel_size p H W).1 ∧
    (metric_to_grid pixel_size p H W).1 ≤ 1 ∧
    -1 ≤ (metric_to_grid pixel_size p H W).2 ∧
    (metric_to_grid pixel_size p H W).2 ≤ 1 :=
  ⟨rfl, (clamp11_mem _).1, (clamp11_mem _).2, (clamp11_mem _).1,
    (clamp11_mem _).2⟩

/-- C3: the gradient estimate pads the SDF by edge replication, convolves
with two fixed `3 × 3` kernels whose weights sum to zero and are divided by
8, and after bilinear sampling returns the two per-axis grid gradients
swapped into `(forward, lateral)` order — the row-axis (vertical-kernel)
gradient is the forward component and the column-axis gradient the lateral
component — each divided by `pixel_size`. -/
theorem c3_get_gradients_sobel_swap {B H W N : ℕ} (cfg : Config)
    (sdf : Fin B → Fin H → Fin W → ℚ) (trajs : Fin B → Fin N → ℚ × ℚ)
    (b : Fin B) (n : Fin N) :
    ((∑ a : Fin 3, ∑ c : Fin 3, sobel_x a c) = 0 ∧
      (∑ a : Fin 3, ∑ c : Fin 3, sobel_y a c) = 0) ∧
    (get_gradients cfg sdf trajs).2 b n =
      (gridSample (convClamp (sdf b) sobel_y)
          (metric_to_grid cfg.pixel_size (trajs b n) H W).1
          (metric_to_grid cfg.pixel_size (trajs b n) H W).2 / cfg.pixel_size,
        gridSample (convClamp (sdf b) sobel_x)
          (metric_to_grid cfg.pixel_size (trajs b n) H W).1
          (metric_to_grid cfg.pixel_size (trajs b n) H W).2 / cfg.pixel_size) :=
  ⟨⟨by norm_num [Fin.sum_univ_three, sobel_x, List.getD],
    by norm_num [Fin.sum_univ_three, sobel_y, List.getD]⟩, rfl⟩

/-- C7: with the occupancy input and threshold fixed, increasing
`ego_radius` by any `δ ≥ 0` lowers every cell of the field by exactly `δ`;
the binary mask, which does not read the configuration, is unchanged. -/
theorem c7_margin_shift {B C H W : ℕ} (cfg : Config) (δ : ℚ) (hδ : 0 ≤ δ)
    (semantics : Fin B → Fin C → Fin H → Fin W → ℝ) (hC : 1 < C)
    (threshold : ℝ) (b : Fin B) (i : Fin H) (j : Fin W) :
    compute_sdf ⟨cfg.pixel_size, cfg.ego_radius + δ, cfg.bev_range⟩
        semantics hC threshold b i j =
      compute_sdf cfg semantics hC threshold b i j - δ := by
  rw [compute_sdf_eq, compute_sdf_eq]
  ring

theorem c7_witness :
    (0 : ℚ) ≤ 1 ∧
    compute_sdf ⟨cfg0.pixel_size, cfg0.ego_radius + 1, cfg0.bev_range⟩
        semZero one_lt_two (1 / 2) 0 0 0 =
      compute_sdf cfg0 semZero one_lt_two (1 / 2) 0 0 0 - 1 :=
  ⟨by norm_num,
    c7_margin_shift cfg0 1 (by norm_num) semZero one_lt_two (1 / 2) 0 0 0⟩

/-- C9: two configurations that differ only in `bev_range` produce identical
outputs from both `compute_sdf` and `get_gradients` on every input — the
stored `bev_range` is never read by either computation. -/
theorem c9_bev_range_never_read {B C H W N : ℕ} (ps er r1 r2 : ℚ)
    (semantics : Fin B → Fin C → Fin H → Fin W → ℝ) (hC : 1 < C)
    (threshold : ℝ) (sdf : Fin B → Fin H → Fin W → ℚ)
    (trajs : Fin B → Fin N → ℚ × ℚ) :
    compute_sdf ⟨ps, er, r1⟩ semantics hC threshold =
      compute_sdf ⟨ps, er, r2⟩ semantics hC threshold ∧
    get_gradients ⟨ps, er, r1⟩ sdf trajs = get_gradients ⟨ps, er, r2⟩ sdf trajs :=
  ⟨rfl, rfl⟩

theorem c9_witness :
    compute_sdf ⟨1 / 4, 5 / 2, 32⟩ semZero one_lt_two (1 / 2) =
      compute_sdf ⟨1 / 4, 5 / 2, 64⟩ semZero one_lt_two (1 / 2) ∧
    get_gradients ⟨1 / 4, 5 / 2, 32⟩
        (fun (_ : Fin 1) (_ : Fin 1) (_ : Fin 1) => (0 : ℚ)) trajOrigin =
      get_gradients ⟨1 / 4, 5 / 2, 64⟩
        (fun (_ : Fin 1) (_ : Fin 1) (_ : Fin 1) => (0 : ℚ)) trajOrigin :=
  c9_bev_range_never_read (1 / 4) (5 / 2) 32 64 semZero one_lt_two (1 / 2)
    (fun _ _ _ => 0) trajOrigin

/-- C10: the sampled clearance returned by `get_gradients` always lies
between the minimum and maximum cell values of the input SDF grid — the
clamped coordinates, border padding and bilinear interpolation never
extrapolate beyond the grid's value range, including for points mapped
outside the grid. -/
theorem c10_sample_within_grid_range {B H W N : ℕ} (cfg : Config)
    (hH : 0 < H) (hW : 0 < W) (sdf : Fin B → Fin H → Fin W → ℚ)
    (trajs : Fin B → Fin N → ℚ × ℚ) (b : Fin B) (n : Fin N) (lo hi : ℚ)
    (hlo : ∀ i j, lo ≤ sdf b i j) (hhi : ∀ i j, sdf b i j ≤ hi) :
    lo ≤ (get_gradients cfg sdf trajs).1 b n ∧
    (get_gradients cfg sdf trajs).1 b n ≤ hi := by
  rw [get_gradients_fst]
  exact gridSample_bounds hH hW (sdf b) _ _ lo hi hlo hhi

theorem c10_witness :
    ((0 < 1) ∧ (∀ i j : Fin 1, (-1 : ℚ) ≤ 0 ∧ (0 : ℚ) ≤ 1)) ∧
    (-1 : ℚ) ≤ (get_gradients cfg0
        (fun (_ : Fin 1) (_ : Fin 1) (_ : Fin 1) => (0 : ℚ)) trajOrigin).1 0 0 ∧
    (get_gradients cfg0
        (fun (_ : Fin 1) (_ : Fin 1) (_ : Fin 1) => (0 : ℚ)) trajOrigin).1 0 0 ≤ 1 :=
  ⟨⟨by norm_num, fun _ _ => by norm_num⟩,
    c10_sample_within_grid_range cfg0 (by norm_num) (by norm_num)
      (fun _ _ _ => 0) trajOrigin 0 0 (-1) 1 (fun _ _ => by norm_num)
      (fun _ _ => by norm_num)⟩

/-- C8: for a scene whose thresholded drivable mask is all-ones, every
pre-margin cell (the field before the `ego_radius` subtraction, i.e.
`compute_sdf + ego_radius`) is the defined saturated value
`(H + W) * pixel_size` — strictly positive and at least one pixel's worth of
distance; for an all-zeros mask every pre-margin cell is the saturated value
`-(H + W) * pixel_size` — strictly negative and at most minus one pixel. -/
theorem c8_degenerate_mask_sign {B C H W : ℕ} (cfg : Config)
    (hps : 0 < cfg.pixel_size)
    (semantics : Fin B → Fin C → Fin H → Fin W → ℝ) (hC : 1 < C)
    (threshold : ℝ) (b : Fin B) :
    ((∀ i j, drivable_mask semantics hC threshold b i j = 1) → ∀ i j,
      compute_sdf cfg semantics hC threshold b i j + cfg.ego_radius =
        ((H + W : ℕ) : ℚ) * cfg.pixel_size ∧
      cfg.pixel_size ≤
        compute_sdf cfg semantics hC threshold b i j + cfg.ego_radius) ∧
    ((∀ i j, drivable_mask semantics hC threshold b i j = 0) → ∀ i j,
      compute_sdf cfg semantics hC threshold b i j + cfg.ego_radius =
        -(((H + W : ℕ) : ℚ) * cfg.pixel_size) ∧
      compute_sdf cfg semantics hC threshold b i j + cfg.ego_radius ≤
        -cfg.pixel_size) := by
  constructor
  · intro h1 i j
    have hHW : (2 : ℚ) ≤ ((H + W : ℕ) : ℚ) := by
      have hi := i.pos
      have hj := j.pos
      exact_mod_cast Nat.add_le_add hi hj
    have hb : distance_transform (drivable_mask semantics hC threshold b) i j =
        ((H + W : ℕ) : ℚ) :=
      distance_transform_of_no_zero _
        (fun p => by rw [h1 p.1 p.2]; norm_num) i j
    have hd : distance_transform
        (fun i' j' => 1 - drivable_mask semantics hC threshold b i' j') i j = 0 :=
      distance_transform_of_zero_at _ i j (by rw [h1 i j]; norm_num)
    rw [compute_sdf_eq, hb, hd]
    constructor
    · ring
    · nlinarith
  · intro h0 i j
    have hHW : (2 : ℚ) ≤ ((H + W : ℕ) : ℚ) := by
      have hi := i.pos
      have hj := j.pos
      exact_mod_cast Nat.add_le_add hi hj
    have hb : distance_transform (drivable_mask semantics hC threshold b) i j = 0 :=
      distance_transform_of_zero_at _ i j (h0 i j)
    have hd : distance_transform
        (fun i' j' => 1 - drivable_mask semantics hC threshold b i' j') i j =
        ((H + W : ℕ) : ℚ) :=
      distance_transform_of_no_zero _
        (fun p => by rw [h0 p.1 p.2]; norm_num) i j
    rw [compute_sdf_eq, hb, hd]
    constructor
    · ring
    · nlinarith

theorem c8_witness :
    ((0 : ℚ) < cfg0.pixel_size) ∧
    compute_sdf cfg0 semOnes one_lt_two (1 / 2) 0 0 0 + cfg0.ego_radius =
      ((64 + 64 : ℕ) : ℚ) * cfg0.pixel_size ∧
    compute_sdf cfg0 semZero one_lt_two (1 / 2) 0 0 0 + cfg0.ego_radius =
      -(((1 + 1 : ℕ) : ℚ) * cfg0.pixel_size) :=
  ⟨by norm_num [cfg0],
    ((c8_degenerate_mask_sign cfg0 (by norm_num [cfg0]) semOnes one_lt_two
        (1 / 2) 0).1 (drivable_mask_semOnes 0) 0 0).1,
    ((c8_degenerate_mask_sign cfg0 (by norm_num [cfg0]) semZero one_lt_two
        (1 / 2) 0).2 (drivable_mask_semZero 0) 0 0).1⟩

/-- On a scene whose drivable mask is all-ones, the SDF is the constant
saturated value `(H + W) * pixel_size - ego_radius`, and every sampled
clearance equals that constant regardless of the trajectory point. -/
lemma allones_mask_sampled_value {B C H W N : ℕ} (cfg : Config)
    (hH : 0 < H) (hW : 0 < W)
    (semantics : Fin B → Fin C → Fin H → Fin W → ℝ) (hC : 1 < C)
    (threshold : ℝ) (trajs : Fin B → Fin N → ℚ × ℚ) (b : Fin B) (n : Fin N)
    (hm : ∀ i j, drivable_mask semantics hC threshold b i j = 1) :
    (get_gradients cfg (compute_sdf cfg semantics hC threshold) trajs).1 b n =
      ((H + W : ℕ) : ℚ) * cfg.pixel_size - cfg.ego_radius := by
  have hsdf : compute_sdf cfg semantics hC threshold b =
      fun (_ : Fin H) (_ : Fin W) =>
        ((H + W : ℕ) : ℚ) * cfg.pixel_size - cfg.ego_radius := by
    funext i j
    rw [compute_sdf_eq,
      distance_transform_of_no_zero _ (fun p => by rw [hm p.1 p.2]; norm_num),
      distance_transform_of_zero_at _ i j (by rw [hm i j]; norm_num)]
    ring
  rw [get_gradients_fst, hsdf, gridSample_const hH hW]

/-- C4 as stated is false: counterexample at the claim's own instance.  For
the `64 × 64` fully drivable scene with `pixel_size = 1/4` and
`ego_radius = 5/2`, the clearance sampled at the ego origin is the saturated
degenerate value `(64 + 64) * 1/4 - 5/2 = 59/2`, and it differs from the
claimed `(H/2) * 0.25 - ego_radius = 11/2` by `24` meters — 96 grid cells,
far beyond any discretization tolerance of the transform. -/
theorem c4_counterexample :
    (get_gradients cfg0 (compute_sdf cfg0 semOnes one_lt_two (1 / 2))
        trajOrigin).1 0 0 = 59 / 2 ∧
    (59 / 2 : ℚ) - (((64 : ℚ) / 2) * (1 / 4) - 5 / 2) = 24 := by
  constructor
  · rw [allones_mask_sampled_value cfg0 (by norm_num) (by norm_num) semOnes
      one_lt_two (1 / 2) trajOrigin 0 0 (drivable_mask_semOnes 0)]
    norm_num [cfg0]
  · norm_num

/-- C4 amended: for a fully drivable `64 × 64` (indeed any nonempty) grid,
the field is the distance transform's saturated degenerate value everywhere,
so the clearance sampled at `(forward, lateral) = (0, 0)` — or at any other
point — equals `(H + W) * pixel_size - ego_radius`, not
`(H/2) * pixel_size - ego_radius`. -/
theorem c4_fully_drivable_saturated_sample {B C H W N : ℕ} (cfg : Config)
    (hH : 0 < H) (hW : 0 < W)
    (semantics : Fin B → Fin C → Fin H → Fin W → ℝ) (hC : 1 < C)
    (threshold : ℝ) (trajs : Fin B → Fin N → ℚ × ℚ) (b : Fin B) (n : Fin N)
    (hm : ∀ i j, drivable_mask semantics hC threshold b i j = 1) :
    (get_gradients cfg (compute_sdf cfg semantics hC threshold) trajs).1 b n =
      ((H + W : ℕ) : ℚ) * cfg.pixel_size - cfg.ego_radius :=
  allones_mask_sampled_value cfg hH hW semantics hC threshold trajs b n hm

theorem c4_witness :
    (0 < 64) ∧
    (get_gradients cfg0 (compute_sdf cfg0 semOnes one_lt_two (1 / 2))
        trajOrigin).1 0 0 =
      ((64 + 64 : ℕ) : ℚ) * cfg0.pixel_size - cfg0.ego_radius :=
  ⟨by norm_num,
    c4_fully_drivable_saturated_sample cfg0 (by norm_num) (by norm_num)
      semOnes one_lt_two (1 / 2) trajOrigin 0 0 (drivable_mask_semOnes 0)⟩

/-- C5 as stated is false: on a batch mismatch the call does not fail
eagerly at entry with a `ShapeMismatch` error — the source has no entry
check at all, and the failure is the tensor library's generic runtime error
raised from inside `F.grid_sample`, reached only after the Sobel maps and
the grid coordinates have been built. -/
theorem c5_counterexample :
    get_gradients_dyn cfg0 [fun (_ : Fin 1) (_ : Fin 1) => (0 : ℚ)]
        [[((0 : ℚ), (0 : ℚ))], [((0 : ℚ), (0 : ℚ))]] =
      .error .torchRuntime ∧
    PyError.torchRuntime ≠ PyError.shapeMismatch :=
  ⟨rfl, by decide⟩

/-- C5 amended: a batch-size mismatch between `sdf` and `trajectories` makes
`get_gradients` fail, but with the library's runtime error from the
`grid_sample` call rather than an eager entry-time `ShapeMismatch`; and
`compute_sdf`, which takes a single well-formed `[B, C, H, W]` input,
performs no shape checks and has no error conditions at all. -/
theorem c5_mismatch_fails_in_sampling {H W : ℕ} (cfg : Config)
    (sdf : List (Fin H → Fin W → ℚ)) (trajs : List (List (ℚ × ℚ)))
    (hm : sdf.length ≠ trajs.length) :
    get_gradients_dyn cfg sdf trajs = .error .torchRuntime ∧
    (∀ {B C H' W' : ℕ} (cfg' : Config)
      (semantics : Fin B → Fin C → Fin H' → Fin W' → ℝ) (hC : 1 < C) (t : ℝ),
      compute_sdf_dyn cfg' semantics hC t =
        .ok (compute_sdf cfg' semantics hC t)) := by
  constructor
  · simp only [get_gradients_dyn, grid_sample_batch, List.length_map,
      if_neg hm]
    rfl
  · intro B C H' W' cfg' semantics hC t
    rfl

theorem c5_mismatch_witness :
    ([fun (_ : Fin 1) (_ : Fin 1) => (0 : ℚ)].length ≠
      [[((0 : ℚ), (0 : ℚ))], [((0 : ℚ), (0 : ℚ))]].length) ∧
    get_gradients_dyn cfg0 [fun (_ : Fin 1) (_ : Fin 1) => (0 : ℚ)]
        [[((0 : ℚ), (0 : ℚ))], [((0 : ℚ), (0 : ℚ))]] =
      .error .torchRuntime :=
  ⟨by norm_num,
    (c5_mismatch_fails_in_sampling cfg0 _ _ (by norm_num)).1⟩

/-- C6 as stated is false: with the invalid configuration
`pixel_size = -1` the constructor succeeds (it stores the values without
validation) and `compute_sdf` does not fail either — it computes and returns
a field, whose cell value on the concrete all-zero-logit input is `-1/2`. -/
theorem c6_counterexample :
    SafetyBarrier_init (-1) (5 / 2) 32 = .ok ⟨-1, 5 / 2, 32⟩ ∧
    compute_sdf_dyn ⟨-1, 5 / 2, 32⟩ semZero one_lt_two (1 / 2) =
      .ok (compute_sdf ⟨-1, 5 / 2, 32⟩ semZero one_lt_two (1 / 2)) ∧
    compute_sdf ⟨-1, 5 / 2, 32⟩ semZero one_lt_two (1 / 2) 0 0 0 = -1 / 2 := by
  refine ⟨rfl, rfl, ?_⟩
  rw [compute_sdf_eq,
    distance_transform_of_zero_at _ 0 0 (drivable_mask_semZero 0 0 0),
    distance_transform_of_no_zero _
      (fun p => by rw [drivable_mask_semZero 0 p.1 p.2]; norm_num)]
  norm_num

/-- C6 amended: no configuration validation exists — the constructor stores
any `pixel_size`, `ego_radius`, `bev_range` unchecked, and `compute_sdf`
accepts any threshold and returns a computed field even when the
configuration is invalid (non-positive `pixel_size`, negative `ego_radius`,
or threshold outside `(0, 1)`). -/
theorem c6_invalid_config_not_rejected {B C H W : ℕ} (ps er br : ℚ) (t : ℝ)
    (hbad : ps ≤ 0 ∨ er < 0 ∨ ¬(0 < t ∧ t < 1))
    (semantics : Fin B → Fin C → Fin H → Fin W → ℝ) (hC : 1 < C) :
    SafetyBarrier_init ps er br = .ok ⟨ps, er, br⟩ ∧
    compute_sdf_dyn ⟨ps, er, br⟩ semantics hC t =
      .ok (compute_sdf ⟨ps, er, br⟩ semantics hC t) :=
  ⟨rfl, rfl⟩

theorem c6_invalid_config_witness :
    ((-1 : ℚ) ≤ 0 ∨ (5 / 2 : ℚ) < 0 ∨ ¬(0 < (1 / 2 : ℝ) ∧ (1 / 2 : ℝ) < 1)) ∧
    SafetyBarrier_init (-1) (5 / 2) 32 = .ok ⟨-1, 5 / 2, 32⟩ ∧
    compute_sdf_dyn ⟨-1, 5 / 2, 32⟩ semZero one_lt_two (1 / 2) =
      .ok (compute_sdf ⟨-1, 5 / 2, 32⟩ semZero one_lt_two (1 / 2)) :=
  ⟨Or.inl (by norm_num),
    c6_invalid_config_not_rejected (-1) (5 / 2) 32 (1 / 2)
      (Or.inl (by norm_num)) semZero one_lt_two⟩
